import Mathlib

/-!
Verification of the `pgdb` crate (ephemeral Postgres fixture provisioning).

The development shallowly embeds the relevant parts of the source:

* `src/pgdb/src/lib.rs` — SQL quoting (`quote`, `escape_ident`,
  `escape_string`), random credential generation, URL construction,
  `run_psql_command`, `create_user_and_database`, `create_fixture_db`,
  `parse_external_test_url`, `PostgresBuilder::start` (port resolution and
  the readiness-probe loop), `Postgres::as_user` / `as_superuser`,
  `PostgresClient::psql` / `run_sql` / `load_sql` / `url`;
* `src/pgdb/src/db_instance.rs` — the `DbInstance` handle, its `Drop`
  cleanup, and the shared-instance registry inside `db_fixture`.

Strings are modelled as Lean `String` (a wrapper around `List Char`);
machine-level randomness, subprocess execution and URL parsing are
modelled as explicit oracle parameters, so all definitions are executable.
-/

namespace Pgdb

/-- The double-quote character used by `escape_ident` (lib.rs line 757). -/
def dq : Char := Char.ofNat 34

/-- The single-quote character used by `escape_string` (lib.rs line 762). -/
def sq : Char := Char.ofNat 39

/-- Body of the `for c in unescaped.chars()` loop of `quote`
(lib.rs lines 742-749): each occurrence of the quote character is pushed
twice, every other character is pushed unchanged. -/
def quoteBody (q : Char) : List Char → List Char
  | [] => []
  | c :: rest => (if c = q then [q, q] else [c]) ++ quoteBody q rest

/-- `quote` (lib.rs lines 738-753): push the quote character, the doubled
body, then the quote character again. -/
def quote (q : Char) (unescaped : List Char) : List Char :=
  q :: quoteBody q unescaped ++ [q]

/-- `escape_ident` (lib.rs lines 756-758): quote with a double quote. -/
def escape_ident (unescaped : String) : String :=
  ⟨quote dq unescaped.data⟩

/-- `escape_string` (lib.rs lines 761-763): quote with a single quote. -/
def escape_string (unescaped : String) : String :=
  ⟨quote sq unescaped.data⟩

/-- Strip the outer quote characters from a quoted output: defined only
when the list starts and ends with the quote character. -/
def stripOuterQuote (q : Char) (l : List Char) : Option (List Char) :=
  if 2 ≤ l.length ∧ l.head? = some q ∧ l.getLast? = some q then
    some ((l.drop 1).dropLast)
  else
    none

/-- Un-double embedded quote characters: the reverse scan described by the
spec's round-trip property (each doubled quote character becomes a single
one, all other characters are kept). -/
def undouble (q : Char) : List Char → List Char
  | [] => []
  | c :: rest =>
    if c = q then
      match rest with
      | [] => [q]
      | c2 :: rest2 =>
        if c2 = q then q :: undouble q rest2 else q :: undouble q (c2 :: rest2)
    else c :: undouble q rest

theorem undouble_cons_ne (q c : Char) (rest : List Char) (h : ¬c = q) :
    undouble q (c :: rest) = c :: undouble q rest := by
  cases rest with
  | nil => simp [undouble, h]
  | cons c2 rest2 => simp [undouble, h]

theorem undouble_quoteBody (q : Char) (s : List Char) :
    undouble q (quoteBody q s) = s := by
  induction s with
  | nil => rfl
  | cons c rest ih =>
    by_cases h : c = q
    · subst h
      simp [quoteBody, undouble, ih]
    · simp [quoteBody, h, undouble_cons_ne q c _ h, ih]

theorem quoteBody_filter (q : Char) (s : List Char) :
    (quoteBody q s).filter (fun c => c != q) = s.filter (fun c => c != q) := by
  induction s with
  | nil => rfl
  | cons c rest ih =>
    by_cases h : c = q
    · subst h; simp [quoteBody, ih]
    · simp [quoteBody, h, ih]

theorem quoteBody_count (q : Char) (s : List Char) :
    (quoteBody q s).count q = 2 * s.count q := by
  induction s with
  | nil => rfl
  | cons c rest ih =>
    by_cases h : c = q
    · subst h
      simp [quoteBody, List.count_cons, ih]
      omega
    · simp [quoteBody, List.count_cons, h, ih]

theorem stripOuterQuote_quote (q : Char) (s : List Char) :
    stripOuterQuote q (quote q s) = some (quoteBody q s) := by
  have hhead : (quote q s).head? = some q := rfl
  have hlast : (quote q s).getLast? = some q := by
    show ((q :: quoteBody q s) ++ [q]).getLast? = some q
    exact List.getLast?_concat _
  have hlen : 2 ≤ (quote q s).length := by
    simp [quote]
  have hcond : 2 ≤ (quote q s).length ∧ (quote q s).head? = some q ∧
      (quote q s).getLast? = some q := ⟨hlen, hhead, hlast⟩
  simp only [stripOuterQuote, if_pos hcond]
  show some (((quoteBody q s) ++ [q]).dropLast) = some (quoteBody q s)
  rw [List.dropLast_concat]

/-- C1: `escape_ident` wraps its input in double quotes and `escape_string`
wraps its input in single quotes, doubling every embedded occurrence of the
respective quote character and altering no other character (the non-quote
characters of the output are exactly those of the input, in order, and the
quote character occurs exactly twice plus twice its count in the input);
consequently, stripping the outer quotes and un-doubling the embedded quote
characters recovers exactly the original string, for every input. -/
theorem escape_round_trip (s : String) :
    ((stripOuterQuote dq (escape_ident s).data).map (undouble dq) =
        some s.data) ∧
    ((stripOuterQuote sq (escape_string s).data).map (undouble sq) =
        some s.data) ∧
    ((escape_ident s).data.filter (fun c => c != dq) =
        s.data.filter (fun c => c != dq)) ∧
    ((escape_string s).data.filter (fun c => c != sq) =
        s.data.filter (fun c => c != sq)) ∧
    ((escape_ident s).data.count dq = 2 + 2 * s.data.count dq) ∧
    ((escape_string s).data.count sq = 2 + 2 * s.data.count sq) := by
  refine ⟨?_, ?_, ?_, ?_, ?_, ?_⟩
  · simp [escape_ident, stripOuterQuote_quote, undouble_quoteBody]
  · simp [escape_string, stripOuterQuote_quote, undouble_quoteBody]
  · simp [escape_ident, quote, quoteBody_filter]
  · simp [escape_string, quote, quoteBody_filter]
  · simp [escape_ident, quote, List.count_cons, List.count_append,
      quoteBody_count]
    omega
  · simp [escape_string, quote, List.count_cons, List.count_append,
      quoteBody_count]
    omega

/-! ## URLs, subprocess commands and errors -/

/-- Connection URLs, modelled by their components as used by the source
(scheme, username, optional password, optional host, optional port, path).
The `url` crate is an external collaborator; only the accessors and setters
the source calls are modelled. -/
structure Url where
  scheme : String
  username : String
  password : Option String
  host : Option String
  port : Option Nat
  path : String
deriving DecidableEq, Repr

/-- `Url::set_username` as used by the source: replaces the username. -/
def Url.set_username (u : Url) (name : String) : Url :=
  { u with username := name }

/-- `Url::set_password` as used by the source: replaces the password. -/
def Url.set_password (u : Url) (pw : Option String) : Url :=
  { u with password := pw }

/-- `Url::set_path` as used by the source: the `url` crate stores the path
with a leading slash for URLs that have a host. -/
def Url.set_path (u : Url) (p : String) : Url :=
  { u with path := "/" ++ p }

/-- `str::trim_start_matches` for a single pattern character: removes every
leading occurrence. Used to recover the database name from `url.path()`. -/
def trimStartMatches (c : Char) (s : String) : String :=
  ⟨s.data.dropWhile (fun x => x = c)⟩

/-- A subprocess invocation: program, argument list, extra environment. -/
structure Cmd where
  program : String
  args : List String
  env : List (String × String)
deriving DecidableEq, Repr

/-- `std::process::ExitStatus`: an optional exit code (`none` models
termination by signal). -/
structure ExitStatus where
  code : Option Int
deriving DecidableEq, Repr

/-- `ExitStatus::success`: true exactly when the exit code is zero. -/
def ExitStatus.success (s : ExitStatus) : Bool := s.code = some 0

/-- Outcome of spawning a subprocess: the launch itself can fail with an
I/O error (modelled by a numeric identifier), or the process runs and
exits with a status. -/
inductive LaunchResult where
  | launchFail (ioErr : Nat)
  | exited (status : ExitStatus)
deriving DecidableEq, Repr

/-- `ExternalUrlError` (error.rs lines 50-64). The parse error payload is
modelled by a numeric identifier. -/
inductive ExternalUrlError where
  | ParseError (e : Nat)
  | InvalidScheme
  | MissingHost
  | MissingUsername
deriving DecidableEq, Repr

/-- `Error` (error.rs lines 10-47), restricted to the variants reachable
from the embedded operations; `io::Error` payloads are numeric
identifiers. -/
inductive Error where
  | RunPsql (ioErr : Nat)
  | PsqlFailed (status : ExitStatus)
  | StartupTimeout
  | InvalidExternalUrl (e : ExternalUrlError)
deriving DecidableEq, Repr

/-! ## Clients (`Postgres::as_user`, `as_superuser`, `PostgresClient`) -/

/-- The fields of `Postgres` that client construction reads
(lib.rs lines 282-294): the superuser URL and the `psql` binary path. -/
structure Postgres where
  superuser_url : Url
  psql_binary : String
deriving DecidableEq, Repr

/-- `PostgresClient` (lib.rs lines 299-304): a borrowed instance plus a
client URL with credentials. The borrow is modelled by embedding the
instance value. -/
structure PostgresClient where
  instance_ : Postgres
  client_url : Url
deriving DecidableEq, Repr

/-- `Postgres::as_superuser` (lib.rs lines 411-417): a client whose URL is
a clone of the superuser URL. -/
def Postgres.as_superuser (pg : Postgres) : PostgresClient :=
  { instance_ := pg, client_url := pg.superuser_url }

/-- `Postgres::as_user` (lib.rs lines 420-433): clone the superuser URL,
then set username and password to the given credentials. -/
def Postgres.as_user (pg : Postgres) (username password : String) :
    PostgresClient :=
  { instance_ := pg
  , client_url :=
      (pg.superuser_url.set_username username).set_password (some password) }

/-- `PostgresClient::url` (lib.rs lines 540-544): clone the client URL and
set its path to the database name. -/
def PostgresClient.url (c : PostgresClient) (database : String) : Url :=
  c.client_url.set_path database

/-- C9: `as_user(name, password)` returns a client whose URL differs from
the superuser URL only in username and password (scheme, host, port and
path are unchanged, username becomes `name` and password becomes
`Some(password)`); `as_superuser` returns a client whose URL equals the
superuser URL exactly; and `PostgresClient::url(database)` changes only
the path component of the client URL (scheme, username, password, host and
port are unchanged). -/
theorem client_url_frame (pg : Postgres) (name password database : String)
    (c : PostgresClient) :
    ((pg.as_user name password).client_url.scheme = pg.superuser_url.scheme ∧
     (pg.as_user name password).client_url.host = pg.superuser_url.host ∧
     (pg.as_user name password).client_url.port = pg.superuser_url.port ∧
     (pg.as_user name password).client_url.path = pg.superuser_url.path ∧
     (pg.as_user name password).client_url.username = name ∧
     (pg.as_user name password).client_url.password = some password) ∧
    (pg.as_superuser.client_url = pg.superuser_url) ∧
    ((c.url database).scheme = c.client_url.scheme ∧
     (c.url database).username = c.client_url.username ∧
     (c.url database).password = c.client_url.password ∧
     (c.url database).host = c.client_url.host ∧
     (c.url database).port = c.client_url.port ∧
     (c.url database).path = "/" ++ database) := by
  refine ⟨⟨rfl, rfl, rfl, rfl, rfl, rfl⟩, rfl, rfl, rfl, rfl, rfl, rfl, rfl⟩

/-! ## External test URL parsing (`parse_external_test_url`) -/

/-- `parse_external_test_url` (lib.rs lines 112-134). The environment
variable is an `Option String`; `Url::parse` (external crate) is an oracle
mapping the string to either a parse-error identifier or a parsed URL.
Checks happen in source order: parse, scheme, host, username. -/
def parse_external_test_url (envVar : Option String)
    (urlParse : String → Except Nat Url) : Except Error (Option Url) :=
  match envVar with
  | none => .ok none
  | some urlStr =>
    match urlParse urlStr with
    | .error e => .error (.InvalidExternalUrl (.ParseError e))
    | .ok url =>
      if url.scheme ≠ "postgres" then
        .error (.InvalidExternalUrl .InvalidScheme)
      else if url.host = none then
        .error (.InvalidExternalUrl .MissingHost)
      else if url.username = "" then
        .error (.InvalidExternalUrl .MissingUsername)
      else
        .ok (some url)

/-- C8: `parse_external_test_url` returns `Ok(None)` when the setting is
absent; when present it fails with `ParseError` exactly when the string
does not parse, with `InvalidScheme` when it parses but the scheme is not
"postgres", with `MissingHost` when scheme is right but there is no host,
with `MissingUsername` when only the username is empty; and a URL passing
all four checks is returned unchanged as `Ok(Some(url))`. -/
theorem parse_external_test_url_spec (s : String) (url : Url)
    (urlParse : String → Except Nat Url) :
    (parse_external_test_url none urlParse = .ok none) ∧
    (∀ e, urlParse s = .error e →
      parse_external_test_url (some s) urlParse =
        .error (.InvalidExternalUrl (.ParseError e))) ∧
    (urlParse s = .ok url → url.scheme ≠ "postgres" →
      parse_external_test_url (some s) urlParse =
        .error (.InvalidExternalUrl .InvalidScheme)) ∧
    (urlParse s = .ok url → url.scheme = "postgres" → url.host = none →
      parse_external_test_url (some s) urlParse =
        .error (.InvalidExternalUrl .MissingHost)) ∧
    (urlParse s = .ok url → url.scheme = "postgres" → url.host ≠ none →
      url.username = "" →
      parse_external_test_url (some s) urlParse =
        .error (.InvalidExternalUrl .MissingUsername)) ∧
    (urlParse s = .ok url → url.scheme = "postgres" → url.host ≠ none →
      url.username ≠ "" →
      parse_external_test_url (some s) urlParse = .ok (some url)) := by
  refine ⟨rfl, ?_, ?_, ?_, ?_, ?_⟩
  · intro e he
    simp [parse_external_test_url, he]
  · intro hp hs
    simp [parse_external_test_url, hp, hs]
  · intro hp hs hh
    simp [parse_external_test_url, hp, hs, hh]
  · intro hp hs hh hu
    simp [parse_external_test_url, hp, hs, hh, hu]
  · intro hp hs hh hu
    simp [parse_external_test_url, hp, hs, hh, hu]

/-- An example admin URL used to instantiate theorems at concrete inputs. -/
def sampleAdminUrl : Url :=
  { scheme := "postgres", username := "admin", password := some "pw"
  , host := some "dbhost", port := some 5432, path := "" }

/-- Witness for C8 at concrete inputs: a valid URL is accepted unchanged. -/
theorem parse_external_test_url_spec_witness :
    parse_external_test_url (some "u") (fun _ => .ok sampleAdminUrl) =
      .ok (some sampleAdminUrl) :=
  (parse_external_test_url_spec "u" sampleAdminUrl
      (fun _ => .ok sampleAdminUrl)).2.2.2.2.2
    rfl rfl (by decide) (by decide)

/-! ## SQL-shell invocation (`PostgresClient::psql` / `run_sql` / `load_sql`) -/

/-- `PostgresClient::psql` (lib.rs lines 446-469): build the command
`psql -h host -p port -U username -d database` with `PGPASSWORD` set in
the environment. The source panics (`expect`) when the client URL lacks a
host or port; the panic is modelled by `none`. -/
def PostgresClient.psql (c : PostgresClient) (database : String) :
    Option Cmd :=
  match c.client_url.host, c.client_url.port with
  | some host, some port =>
    some
      { program := c.instance_.psql_binary
      , args := ["-h", host, "-p", toString port, "-U",
          c.client_url.username, "-d", database]
      , env := [("PGPASSWORD", c.client_url.password.getD "")] }
  | _, _ => none

/-- Map a subprocess outcome to the source's result handling
(`status().map_err(Error::RunPsql)` followed by the `success` check
returning `Error::PsqlFailed`, lib.rs lines 477-484 and 493-500). -/
def psqlStatusToResult (r : LaunchResult) : Except Error Unit :=
  match r with
  | .launchFail e => .error (.RunPsql e)
  | .exited st => if st.success then .ok () else .error (.PsqlFailed st)

/-- `PostgresClient::run_sql` (lib.rs lines 488-501): append `-c sql` to
the `psql` command, run it and map the status. Returns the issued command
together with the result. -/
def PostgresClient.run_sql (c : PostgresClient) (exec : Cmd → LaunchResult)
    (database sql : String) : Option (Cmd × Except Error Unit) :=
  (c.psql database).map fun base =>
    let cmd := { base with args := base.args ++ ["-c", sql] }
    (cmd, psqlStatusToResult (exec cmd))

/-- `PostgresClient::load_sql` (lib.rs lines 472-485): append
`-f filename` to the `psql` command, run it and map the status. -/
def PostgresClient.load_sql (c : PostgresClient) (exec : Cmd → LaunchResult)
    (database filename : String) : Option (Cmd × Except Error Unit) :=
  (c.psql database).map fun base =>
    let cmd := { base with args := base.args ++ ["-f", filename] }
    (cmd, psqlStatusToResult (exec cmd))

theorem psqlStatusToResult_spec (r : LaunchResult) :
    (psqlStatusToResult r = .ok () ↔
      ∃ st, r = .exited st ∧ st.success = true) ∧
    (∀ e, r = .launchFail e →
      psqlStatusToResult r = .error (.RunPsql e)) ∧
    (∀ st, r = .exited st → st.success = false →
      psqlStatusToResult r = .error (.PsqlFailed st)) := by
  cases r with
  | launchFail e => simp [psqlStatusToResult]
  | exited st =>
    by_cases h : st.success = true
    · simp [psqlStatusToResult, h]
    · simp [Bool.not_eq_true] at h
      simp [psqlStatusToResult, h]

/-- C7: `run_sql` and `load_sql` invoke the SQL shell with the password
supplied only through the `PGPASSWORD` environment variable — the
argument list is exactly `-h host -p port -U user -d database` plus
`-c sql` (resp. `-f file`) and does not depend on the password — and they
return `Ok` if and only if the subprocess exits successfully; a non-zero
exit yields `Err(PsqlFailed(status))` carrying that status, while a
launch failure yields the distinct `Err(RunPsql(_))`. -/
theorem run_sql_load_sql_spec (c : PostgresClient)
    (exec : Cmd → LaunchResult) (database sql filename host : String)
    (port : Nat) (hh : c.client_url.host = some host)
    (hp : c.client_url.port = some port) :
    ∃ cmd res cmdf resf,
      c.run_sql exec database sql = some (cmd, res) ∧
      c.load_sql exec database filename = some (cmdf, resf) ∧
      cmd.program = c.instance_.psql_binary ∧
      cmd.args = ["-h", host, "-p", toString port, "-U",
        c.client_url.username, "-d", database, "-c", sql] ∧
      cmd.env = [("PGPASSWORD", c.client_url.password.getD "")] ∧
      cmdf.program = c.instance_.psql_binary ∧
      cmdf.args = ["-h", host, "-p", toString port, "-U",
        c.client_url.username, "-d", database, "-f", filename] ∧
      cmdf.env = [("PGPASSWORD", c.client_url.password.getD "")] ∧
      (res = .ok () ↔ ∃ st, exec cmd = .exited st ∧ st.success = true) ∧
      (∀ e, exec cmd = .launchFail e → res = .error (.RunPsql e)) ∧
      (∀ st, exec cmd = .exited st → st.success = false →
        res = .error (.PsqlFailed st)) ∧
      (resf = .ok () ↔ ∃ st, exec cmdf = .exited st ∧ st.success = true) ∧
      (∀ e, exec cmdf = .launchFail e → resf = .error (.RunPsql e)) ∧
      (∀ st, exec cmdf = .exited st → st.success = false →
        resf = .error (.PsqlFailed st)) := by
  have hbase : c.psql database =
      some
        { program := c.instance_.psql_binary
        , args := ["-h", host, "-p", toString port, "-U",
            c.client_url.username, "-d", database]
        , env := [("PGPASSWORD", c.client_url.password.getD "")] } := by
    simp [PostgresClient.psql, hh, hp]
  refine
    ⟨⟨c.instance_.psql_binary,
        ["-h", host, "-p", toString port, "-U", c.client_url.username, "-d",
          database, "-c", sql],
        [("PGPASSWORD", c.client_url.password.getD "")]⟩,
      psqlStatusToResult (exec ⟨c.instance_.psql_binary,
        ["-h", host, "-p", toString port, "-U", c.client_url.username, "-d",
          database, "-c", sql],
        [("PGPASSWORD", c.client_url.password.getD "")]⟩),
      ⟨c.instance_.psql_binary,
        ["-h", host, "-p", toString port, "-U", c.client_url.username, "-d",
          database, "-f", filename],
        [("PGPASSWORD", c.client_url.password.getD "")]⟩,
      psqlStatusToResult (exec ⟨c.instance_.psql_binary,
        ["-h", host, "-p", toString port, "-U", c.client_url.username, "-d",
          database, "-f", filename],
        [("PGPASSWORD", c.client_url.password.getD "")]⟩),
      ?_, ?_, rfl, rfl, rfl, rfl, rfl, rfl,
      (psqlStatusToResult_spec _).1, (psqlStatusToResult_spec _).2.1,
      (psqlStatusToResult_spec _).2.2, (psqlStatusToResult_spec _).1,
      (psqlStatusToResult_spec _).2.1, (psqlStatusToResult_spec _).2.2⟩
  · simp [PostgresClient.run_sql, hbase]
  · simp [PostgresClient.load_sql, hbase]

/-- Witness for C7 at concrete inputs: a client whose URL has host
"dbhost" and port 5432, under an executor that always exits 0. -/
theorem run_sql_load_sql_spec_witness :
    ∃ cmd res cmdf resf,
      PostgresClient.run_sql
          ⟨⟨sampleAdminUrl, "psql"⟩, sampleAdminUrl⟩
          (fun _ => .exited ⟨some 0⟩) "db" "SELECT 1;" =
        some (cmd, res) ∧
      PostgresClient.load_sql
          ⟨⟨sampleAdminUrl, "psql"⟩, sampleAdminUrl⟩
          (fun _ => .exited ⟨some 0⟩) "db" "init.sql" =
        some (cmdf, resf) ∧
      cmd.program = "psql" ∧
      cmd.args = ["-h", "dbhost", "-p", toString 5432, "-U", "admin", "-d",
        "db", "-c", "SELECT 1;"] ∧
      cmd.env = [("PGPASSWORD", "pw")] ∧
      cmdf.program = "psql" ∧
      cmdf.args = ["-h", "dbhost", "-p", toString 5432, "-U", "admin", "-d",
        "db", "-f", "init.sql"] ∧
      cmdf.env = [("PGPASSWORD", "pw")] ∧
      (res = .ok () ↔ ∃ st, (fun _ : Cmd => LaunchResult.exited ⟨some 0⟩)
        cmd = .exited st ∧ st.success = true) ∧
      (∀ e, (fun _ : Cmd => LaunchResult.exited ⟨some 0⟩) cmd =
        .launchFail e → res = .error (.RunPsql e)) ∧
      (∀ st, (fun _ : Cmd => LaunchResult.exited ⟨some 0⟩) cmd =
        .exited st → st.success = false → res = .error (.PsqlFailed st)) ∧
      (resf = .ok () ↔ ∃ st, (fun _ : Cmd => LaunchResult.exited ⟨some 0⟩)
        cmdf = .exited st ∧ st.success = true) ∧
      (∀ e, (fun _ : Cmd => LaunchResult.exited ⟨some 0⟩) cmdf =
        .launchFail e → resf = .error (.RunPsql e)) ∧
      (∀ st, (fun _ : Cmd => LaunchResult.exited ⟨some 0⟩) cmdf =
        .exited st → st.success = false → resf = .error (.PsqlFailed st)) :=
  run_sql_load_sql_spec ⟨⟨sampleAdminUrl, "psql"⟩, sampleAdminUrl⟩
    (fun _ => .exited ⟨some 0⟩) "db" "SELECT 1;" "init.sql" "dbhost" 5432
    rfl rfl

/-! ## `run_psql_command` and `create_user_and_database` -/

/-- `run_psql_command` (lib.rs lines 137-164): run
`psql -h host -p port -U user -d database -c sql` with `PGPASSWORD` in the
environment, where host comes from the superuser URL (the source panics
when absent, modelled by `none`), the port defaults to 5432, and the
password defaults to the empty string. `psqlBinary` is the result of the
source's search-path lookup for `psql` (fallback "psql"). Returns the
issued command and the mapped result. -/
def run_psql_command (psqlBinary : String) (exec : Cmd → LaunchResult)
    (superuser_url : Url) (database sql : String) :
    Option (Cmd × Except Error Unit) :=
  match superuser_url.host with
  | none => none
  | some host =>
    let cmd : Cmd :=
      { program := psqlBinary
      , args := ["-h", host, "-p", toString (superuser_url.port.getD 5432),
          "-U", superuser_url.username, "-d", database, "-c", sql]
      , env := [("PGPASSWORD", superuser_url.password.getD "")] }
    some (cmd, psqlStatusToResult (exec cmd))

/-- The `CREATE ROLE` statement built by `create_user_and_database`
(lib.rs lines 174-182). -/
def createRoleSql (db_user db_pw : String) : String :=
  "CREATE ROLE " ++ escape_ident db_user ++ " LOGIN ENCRYPTED PASSWORD " ++
    escape_string db_pw ++ ";"

/-- The `CREATE DATABASE` statement built by `create_user_and_database`
(lib.rs lines 184-193). -/
def createDatabaseSql (db_name db_user : String) : String :=
  "CREATE DATABASE " ++ escape_ident db_name ++ " OWNER " ++
    escape_ident db_user ++ ";"

/-- `create_user_and_database` (lib.rs lines 167-196): first run the
`CREATE ROLE` statement against the default database "postgres"; on error
return it immediately (the `?` operator), otherwise run the
`CREATE DATABASE` statement and return its result. The returned list
records the issued commands in order. -/
def create_user_and_database (psqlBinary : String)
    (exec : Cmd → LaunchResult) (superuser_url : Url)
    (db_name db_user db_pw : String) :
    Option (List Cmd × Except Error Unit) :=
  match run_psql_command psqlBinary exec superuser_url "postgres"
      (createRoleSql db_user db_pw) with
  | none => none
  | some (c1, .error e) => some ([c1], .error e)
  | some (c1, .ok ()) =>
    match run_psql_command psqlBinary exec superuser_url "postgres"
        (createDatabaseSql db_name db_user) with
    | none => none
    | some (c2, r2) => some ([c1, c2], r2)

/-- C10: `create_user_and_database` always issues the `CREATE ROLE`
statement first; when the role-creation step fails — launch failure or
non-zero exit — the `CREATE DATABASE` statement is never issued (the
issued-command list is exactly the single role command) and the
role-creation error is returned; only when role creation succeeds is the
`CREATE DATABASE` command issued, as the second command. -/
theorem create_user_and_database_order (psqlBinary : String)
    (exec : Cmd → LaunchResult) (su : Url) (db_name db_user db_pw h : String)
    (hh : su.host = some h) :
    ∃ roleCmd dbCmd : Cmd,
      roleCmd.args = ["-h", h, "-p", toString (su.port.getD 5432), "-U",
        su.username, "-d", "postgres", "-c", createRoleSql db_user db_pw] ∧
      dbCmd.args = ["-h", h, "-p", toString (su.port.getD 5432), "-U",
        su.username, "-d", "postgres", "-c",
        createDatabaseSql db_name db_user] ∧
      (∀ e, exec roleCmd = .launchFail e →
        create_user_and_database psqlBinary exec su db_name db_user db_pw =
          some ([roleCmd], .error (.RunPsql e))) ∧
      (∀ st, exec roleCmd = .exited st → st.success = false →
        create_user_and_database psqlBinary exec su db_name db_user db_pw =
          some ([roleCmd], .error (.PsqlFailed st))) ∧
      (∀ st, exec roleCmd = .exited st → st.success = true →
        create_user_and_database psqlBinary exec su db_name db_user db_pw =
          some ([roleCmd, dbCmd], psqlStatusToResult (exec dbCmd))) := by
  refine
    ⟨⟨psqlBinary,
        ["-h", h, "-p", toString (su.port.getD 5432), "-U", su.username,
          "-d", "postgres", "-c", createRoleSql db_user db_pw],
        [("PGPASSWORD", su.password.getD "")]⟩,
      ⟨psqlBinary,
        ["-h", h, "-p", toString (su.port.getD 5432), "-U", su.username,
          "-d", "postgres", "-c", createDatabaseSql db_name db_user],
        [("PGPASSWORD", su.password.getD "")]⟩,
      rfl, rfl, ?_, ?_, ?_⟩
  · intro e he
    simp [create_user_and_database, run_psql_command, hh, he,
      psqlStatusToResult]
  · intro st he hs
    simp [create_user_and_database, run_psql_command, hh, he, hs,
      psqlStatusToResult]
  · intro st he hs
    simp [create_user_and_database, run_psql_command, hh, he, hs,
      psqlStatusToResult]

/-- Witness for C10 at concrete inputs: an executor that fails the role
command with exit code 1 makes `create_user_and_database` stop after the
single role command. -/
theorem create_user_and_database_order_witness :
    ∃ roleCmd dbCmd : Cmd,
      roleCmd.args = ["-h", "dbhost", "-p",
        toString (sampleAdminUrl.port.getD 5432), "-U",
        sampleAdminUrl.username, "-d", "postgres", "-c",
        createRoleSql "u1" "p1"] ∧
      dbCmd.args = ["-h", "dbhost", "-p",
        toString (sampleAdminUrl.port.getD 5432), "-U",
        sampleAdminUrl.username, "-d", "postgres", "-c",
        createDatabaseSql "d1" "u1"] ∧
      (∀ e, (fun _ : Cmd => LaunchResult.exited ⟨some 1⟩) roleCmd =
        .launchFail e →
        create_user_and_database "psql"
            (fun _ => LaunchResult.exited ⟨some 1⟩) sampleAdminUrl "d1" "u1"
            "p1" =
          some ([roleCmd], .error (.RunPsql e))) ∧
      (∀ st, (fun _ : Cmd => LaunchResult.exited ⟨some 1⟩) roleCmd =
        .exited st → st.success = false →
        create_user_and_database "psql"
            (fun _ => LaunchResult.exited ⟨some 1⟩) sampleAdminUrl "d1" "u1"
            "p1" =
          some ([roleCmd], .error (.PsqlFailed st))) ∧
      (∀ st, (fun _ : Cmd => LaunchResult.exited ⟨some 1⟩) roleCmd =
        .exited st → st.success = true →
        create_user_and_database "psql"
            (fun _ => LaunchResult.exited ⟨some 1⟩) sampleAdminUrl "d1" "u1"
            "p1" =
          some ([roleCmd, dbCmd],
            psqlStatusToResult
              ((fun _ : Cmd => LaunchResult.exited ⟨some 1⟩) dbCmd))) :=
  create_user_and_database_order "psql"
    (fun _ => LaunchResult.exited ⟨some 1⟩) sampleAdminUrl "d1" "u1" "p1"
    "dbhost" rfl

/-! ## Random credentials (`generate_random_string`, `create_fixture_db`) -/

/-- One lowercase hexadecimal digit (0-9 then a-f), as printed by the
`{:x}` formatting of `hex_fmt::HexFmt`. -/
def hexDigit (n : Nat) : Char :=
  if n < 10 then Char.ofNat (48 + n) else Char.ofNat (87 + n)

/-- Lowercase hexadecimal rendering of one byte: high nibble then low
nibble. -/
def byteToHex (b : Nat) : List Char :=
  [hexDigit (b / 16), hexDigit (b % 16)]

/-- `generate_random_string` (lib.rs lines 731-734): 16 bytes drawn from
the OS random generator, formatted as lowercase hex. The random bytes are
an explicit parameter. -/
def generate_random_string (raw : List Nat) : String :=
  ⟨raw.flatMap byteToHex⟩

/-- The lowercase hexadecimal alphabet. -/
def hexAlphabet : List Char := "0123456789abcdef".data

theorem hexDigit_inj_fin :
    ∀ a b : Fin 16, hexDigit a.val = hexDigit b.val → a = b := by decide

theorem hexDigit_mem_alphabet_fin :
    ∀ a : Fin 16, hexDigit a.val ∈ hexAlphabet := by decide

theorem byteToHex_inj {a b : Nat} (ha : a < 256) (hb : b < 256)
    (h : byteToHex a = byteToHex b) : a = b := by
  simp only [byteToHex, List.cons.injEq, and_true] at h
  obtain ⟨h1, h2⟩ := h
  have hda : a / 16 < 16 := by omega
  have hdb : b / 16 < 16 := by omega
  have hma : a % 16 < 16 := Nat.mod_lt _ (by norm_num)
  have hmb : b % 16 < 16 := Nat.mod_lt _ (by norm_num)
  have e1 := hexDigit_inj_fin ⟨a / 16, hda⟩ ⟨b / 16, hdb⟩ h1
  have e2 := hexDigit_inj_fin ⟨a % 16, hma⟩ ⟨b % 16, hmb⟩ h2
  simp only [Fin.mk.injEq] at e1 e2
  omega

theorem hexRender_inj : ∀ (r1 r2 : List Nat), (∀ b ∈ r1, b < 256) →
    (∀ b ∈ r2, b < 256) → r1.length = r2.length →
    r1.flatMap byteToHex = r2.flatMap byteToHex → r1 = r2
  | [], [], _, _, _, _ => rfl
  | [], _ :: _, _, _, hlen, _ => by simp at hlen
  | _ :: _, [], _, _, hlen, _ => by simp at hlen
  | a :: r1, b :: r2, h1, h2, hlen, h => by
    have hcons : byteToHex a ++ r1.flatMap byteToHex =
        byteToHex b ++ r2.flatMap byteToHex := by
      simpa [List.flatMap_cons] using h
    simp only [byteToHex, List.cons_append, List.nil_append,
      List.cons.injEq] at hcons
    obtain ⟨e1, e2, erest⟩ := hcons
    have ha : a < 256 := h1 a (by simp)
    have hb : b < 256 := h2 b (by simp)
    have hab : a = b := byteToHex_inj ha hb (by simp [byteToHex, e1, e2])
    have hrest : r1 = r2 :=
      hexRender_inj r1 r2 (fun x hx => h1 x (by simp [hx]))
        (fun x hx => h2 x (by simp [hx])) (by simpa using hlen) erest
    rw [hab, hrest]

theorem hexRender_length (raw : List Nat) :
    (raw.flatMap byteToHex).length = 2 * raw.length := by
  induction raw with
  | nil => rfl
  | cons b rest ih =>
    simp only [List.flatMap_cons, List.length_append, ih, List.length_cons]
    simp [byteToHex]
    omega

theorem hexRender_alphabet (raw : List Nat) (h : ∀ b ∈ raw, b < 256) :
    ∀ c ∈ raw.flatMap byteToHex, c ∈ hexAlphabet := by
  induction raw with
  | nil => intro c hc; simp at hc
  | cons b rest ih =>
    intro c hc
    simp only [List.flatMap_cons, List.mem_append] at hc
    rcases hc with hc | hc
    · have hb : b < 256 := h b (by simp)
      have hd : b / 16 < 16 := by omega
      have hm : b % 16 < 16 := Nat.mod_lt _ (by norm_num)
      simp only [byteToHex, List.mem_cons, List.not_mem_nil, or_false] at hc
      rcases hc with hc | hc
      · simpa [hc] using hexDigit_mem_alphabet_fin ⟨b / 16, hd⟩
      · simpa [hc] using hexDigit_mem_alphabet_fin ⟨b % 16, hm⟩
    · exact ih (fun x hx => h x (by simp [hx])) c hc

/-- `create_fixture_db` (lib.rs lines 199-217): derive
`fixture_db_<hex>`, `fixture_user_<hex>` and `fixture_pass_<hex>` from one
random identifier, create the user and database, then clone the superuser
URL and set username, password and path to the new credentials. -/
def create_fixture_db (psqlBinary : String) (exec : Cmd → LaunchResult)
    (superuser_url : Url) (raw : List Nat) : Option (Except Error Url) :=
  let random_id := generate_random_string raw
  let db_name := "fixture_db_" ++ random_id
  let db_user := "fixture_user_" ++ random_id
  let db_pw := "fixture_pass_" ++ random_id
  match create_user_and_database psqlBinary exec superuser_url db_name
      db_user db_pw with
  | none => none
  | some (_, .error e) => some (.error e)
  | some (_, .ok ()) =>
    some (.ok (((superuser_url.set_username db_user).set_password
      (some db_pw)).set_path db_name))

theorem string_append_right_inj (p s1 s2 : String)
    (h : p ++ s1 = p ++ s2) : s1 = s2 := by
  have hd : p.data ++ s1.data = p.data ++ s2.data := congrArg String.data h
  have h2 := List.append_cancel_left hd
  cases s1; cases s2
  exact congrArg String.mk h2

/-- C6: every successful fixture creation derives all three credentials
from the single random value rendered as lowercase hex (32 characters from
16 bytes, all in 0-9a-f), names them `fixture_db_<hex>`,
`fixture_user_<hex>`, `fixture_pass_<hex>`, and returns a URL keeping the
superuser URL's scheme, host and port while replacing username, password
and database path; distinct random values yield pairwise distinct database
names, usernames and passwords. -/
theorem create_fixture_db_spec (psqlBinary : String)
    (exec : Cmd → LaunchResult) (su : Url) (raw raw2 : List Nat) :
    ((generate_random_string raw).length = 2 * raw.length) ∧
    ((∀ b ∈ raw, b < 256) →
      ∀ c ∈ (generate_random_string raw).data, c ∈ hexAlphabet) ∧
    (∀ url, create_fixture_db psqlBinary exec su raw = some (.ok url) →
      url.scheme = su.scheme ∧ url.host = su.host ∧ url.port = su.port ∧
      url.username = "fixture_user_" ++ generate_random_string raw ∧
      url.password = some ("fixture_pass_" ++ generate_random_string raw) ∧
      url.path = "/" ++ ("fixture_db_" ++ generate_random_string raw)) ∧
    ((∀ b ∈ raw, b < 256) → (∀ b ∈ raw2, b < 256) →
      raw.length = raw2.length → raw ≠ raw2 →
      ("fixture_db_" ++ generate_random_string raw ≠
        "fixture_db_" ++ generate_random_string raw2) ∧
      ("fixture_user_" ++ generate_random_string raw ≠
        "fixture_user_" ++ generate_random_string raw2) ∧
      ("fixture_pass_" ++ generate_random_string raw ≠
        "fixture_pass_" ++ generate_random_string raw2)) := by
  refine ⟨?_, ?_, ?_, ?_⟩
  · simpa [generate_random_string] using hexRender_length raw
  · intro hv
    simpa [generate_random_string] using hexRender_alphabet raw hv
  · intro url hurl
    cases hc : create_user_and_database psqlBinary exec su
        ("fixture_db_" ++ generate_random_string raw)
        ("fixture_user_" ++ generate_random_string raw)
        ("fixture_pass_" ++ generate_random_string raw) with
    | none => simp [create_fixture_db, hc] at hurl
    | some pr =>
      obtain ⟨cmds, res⟩ := pr
      cases res with
      | error e => simp [create_fixture_db, hc] at hurl
      | ok u =>
        obtain ⟨⟩ := u
        simp only [create_fixture_db, hc, Option.some.injEq,
          Except.ok.injEq] at hurl
        subst hurl
        exact ⟨rfl, rfl, rfl, rfl, rfl, rfl⟩
  · intro hv1 hv2 hlen hne
    have hhex : generate_random_string raw ≠ generate_random_string raw2 := by
      intro h
      exact hne (hexRender_inj raw raw2 hv1 hv2 hlen
        (by simpa [generate_random_string] using congrArg String.data h))
    exact ⟨fun h => hhex (string_append_right_inj _ _ _ h),
      fun h => hhex (string_append_right_inj _ _ _ h),
      fun h => hhex (string_append_right_inj _ _ _ h)⟩

/-- Witness for C6 at concrete inputs: two distinct 16-byte values give
distinct fixture names, and the other conjuncts hold for the first one. -/
theorem create_fixture_db_spec_witness :
    ((generate_random_string
        [0, 1, 2, 3, 4, 5, 6, 7, 8, 9, 10, 11, 12, 13, 14, 255]).length =
      2 * (16 : Nat)) ∧
    ("fixture_db_" ++ generate_random_string
        [0, 1, 2, 3, 4, 5, 6, 7, 8, 9, 10, 11, 12, 13, 14, 255] ≠
      "fixture_db_" ++ generate_random_string
        [0, 1, 2, 3, 4, 5, 6, 7, 8, 9, 10, 11, 12, 13, 14, 254]) := by
  have h := create_fixture_db_spec "psql" (fun _ => .exited ⟨some 0⟩)
    sampleAdminUrl [0, 1, 2, 3, 4, 5, 6, 7, 8, 9, 10, 11, 12, 13, 14, 255]
    [0, 1, 2, 3, 4, 5, 6, 7, 8, 9, 10, 11, 12, 13, 14, 254]
  refine ⟨h.1, (h.2.2.2 (by decide) (by decide) (by decide) (by decide)).1⟩

/-! ## `DbInstance` handles and their `Drop` cleanup -/

/-- `DbInstance` (db_instance.rs lines 20-35), identical in shape to
`DbUrl` (lib.rs lines 22-37): either a local handle sharing a running
instance (the `Arc<Postgres>` share is modelled by the registry state
below) or an external URL together with the superuser URL kept for
cleanup. -/
inductive DbInstance where
  | localDb (url : Url)
  | external (url : Url) (superuser_url : Url)
deriving DecidableEq, Repr

/-- The cleanup invocation built by `run_cleanup_sql` inside
`Drop for DbInstance` (db_instance.rs lines 73-94) and `Drop for DbUrl`
(lib.rs lines 74-93): `psql -h host -p port -U user -d postgres -c sql`
with `PGPASSWORD` in the environment, host defaulting to "localhost" and
port to 5432. -/
def cleanupCmd (psqlBinary : String) (su : Url) (sql : String) : Cmd :=
  { program := psqlBinary
  , args := ["-h", su.host.getD "localhost", "-p",
      toString (su.port.getD 5432), "-U", su.username, "-d", "postgres",
      "-c", sql]
  , env := [("PGPASSWORD", su.password.getD "")] }

/-- The `Drop` implementation (db_instance.rs lines 61-108, lib.rs lines
63-105): for an external handle, extract the database name from the URL
path and the user from the URL username, then run `DROP DATABASE IF
EXISTS` followed by `DROP ROLE IF EXISTS`, ignoring both outcomes (the
return type carries no error); for a local handle, run nothing. The
result records the issued commands, in order, with their outcomes. -/
def dropDbInstance (psqlBinary : String) (exec : Cmd → LaunchResult) :
    DbInstance → List (Cmd × LaunchResult)
  | .localDb _ => []
  | .external url su =>
    let db_name := trimStartMatches '/' url.path
    let db_user := url.username
    let c1 := cleanupCmd psqlBinary su
      ("DROP DATABASE IF EXISTS " ++ escape_ident db_name ++ ";")
    let c2 := cleanupCmd psqlBinary su
      ("DROP ROLE IF EXISTS " ++ escape_ident db_user ++ ";")
    [(c1, exec c1), (c2, exec c2)]

/-- A handle together with its release state. Rust calls `Drop::drop`
at most once per value; the flag makes that lifecycle explicit. -/
structure HandleState where
  inst : DbInstance
  released : Bool
deriving DecidableEq, Repr

/-- Release a handle: runs the `Drop` cleanup exactly when the handle has
not been released yet. -/
def releaseHandle (psqlBinary : String) (exec : Cmd → LaunchResult)
    (h : HandleState) : HandleState × List (Cmd × LaunchResult) :=
  if h.released then (h, [])
  else ({ h with released := true }, dropDbInstance psqlBinary exec h.inst)

/-- C2: releasing an External handle executes exactly two cleanup
statements against the admin URL's default administrative database
("postgres"), in this fixed order: first `DROP DATABASE IF EXISTS <db>;`
then `DROP ROLE IF EXISTS <user>;`, with the database name extracted from
the handle URL's path, the user from its username, both passed through
`escape_ident`; the issued commands do not depend on the subprocess
outcomes (every failure is swallowed — the release has no error output);
the cleanup runs at most once per handle (a second release issues
nothing); and releasing a Local handle issues no DROP statement. -/
theorem db_instance_drop_cleanup (url su : Url) (psqlBinary : String)
    (exec exec2 : Cmd → LaunchResult) :
    ((dropDbInstance psqlBinary exec (.external url su)).map Prod.fst =
      [cleanupCmd psqlBinary su
          ("DROP DATABASE IF EXISTS " ++
            escape_ident (trimStartMatches '/' url.path) ++ ";"),
        cleanupCmd psqlBinary su
          ("DROP ROLE IF EXISTS " ++ escape_ident url.username ++ ";")]) ∧
    ((dropDbInstance psqlBinary exec (.external url su)).map Prod.fst =
      (dropDbInstance psqlBinary exec2 (.external url su)).map Prod.fst) ∧
    (dropDbInstance psqlBinary exec (.localDb url) = []) ∧
    ((releaseHandle psqlBinary exec ⟨.external url su, false⟩).1.released =
      true) ∧
    ((releaseHandle psqlBinary exec ⟨.external url su, false⟩).2 =
      dropDbInstance psqlBinary exec (.external url su)) ∧
    ((releaseHandle psqlBinary exec
        (releaseHandle psqlBinary exec ⟨.external url su, false⟩).1).2 =
      []) := by
  exact ⟨rfl, rfl, rfl, rfl, rfl, rfl⟩

/-! ## Port resolution in `PostgresBuilder::start` -/

/-- Port resolution at the top of `PostgresBuilder::start`
(lib.rs lines 629-631): the explicitly requested port when one was set via
`PostgresBuilder::port` (lib.rs lines 582-585), otherwise the OS-assigned
port obtained by `find_unused_port` (lib.rs lines 272-276). -/
def resolvePort (requestedPort : Option Nat) (osAssignedPort : Nat) : Nat :=
  match requestedPort with
  | some p => p
  | none => osAssignedPort

/-- C4 counterexample: the code keeps no process-wide set of claimed
ports — an explicitly requested port is used exactly as requested, so two
instances started in the same process with the same requested port 5555
(and any OS-assigned candidates) receive the same port, not different
ones. -/
theorem requested_port_not_deduplicated :
    resolvePort (some 5555) 41000 = resolvePort (some 5555) 42000 ∧
    resolvePort (some 5555) 41000 = 5555 :=
  ⟨rfl, rfl⟩

/-- C4 (amended): port resolution uses an explicitly requested port
unchanged — there is no process-wide claimed-port set and no reuse flag —
and only when no port is requested does `start` use a fresh OS-assigned
port; instances whose OS-assigned ports differ receive different ports. -/
theorem resolvePort_spec (p osPort osPort2 : Nat) :
    resolvePort (some p) osPort = p ∧
    resolvePort none osPort = osPort ∧
    (osPort ≠ osPort2 →
      resolvePort none osPort ≠ resolvePort none osPort2) :=
  ⟨rfl, rfl, fun h => h⟩

/-- Witness for the amended C4 at concrete inputs. -/
theorem resolvePort_spec_witness :
    resolvePort none 41000 ≠ resolvePort none 42000 :=
  (resolvePort_spec 5555 41000 42000).2.2 (by decide)

/-! ## The shared-instance registry (`db_fixture`, db_instance.rs 139-160,
lib.rs 244-264)

The `static DB: Mutex<Weak<Postgres>>` slot is modelled as a state
machine.  Instances launched by the registry are numbered consecutively;
`counts` tracks the strong reference count of each (`counts.getD i 0`).
The registry itself stores only a weak reference, so it contributes
nothing to any count.  The mutex serializes the whole check-then-create
sequence, so acquisitions and releases are modelled as atomic events. -/

/-- State of the registry slot plus the strong counts of every instance it
ever launched. -/
structure RegistryState where
  slot : Option Nat
  counts : List Nat
  launches : Nat
deriving DecidableEq, Repr

/-- The initial slot: `Mutex::new(Weak::new())` — empty weak reference,
no instance ever launched. -/
def initRegistry : RegistryState := { slot := none, counts := [], launches := 0 }

/-- Strong reference count of instance `i` (zero for instances never
launched). -/
def strongCount (s : RegistryState) (i : Nat) : Nat := s.counts.getD i 0

/-- Launch a brand-new instance (the `else` branch of `db_fixture`):
number it, give it one strong reference (the `Arc` about to be returned),
store a weak reference to it in the slot (`*guard = Arc::downgrade(&arc)`
— weak, hence not counted), and count the launch. -/
def launchNew (s : RegistryState) : RegistryState × Nat :=
  (⟨some s.counts.length, s.counts ++ [1], s.launches + 1⟩, s.counts.length)

/-- One acquisition (`db_fixture`'s locked block): try to upgrade the weak
reference — it succeeds exactly when the referenced instance still has a
strong holder — and return the existing instance with one more strong
reference; otherwise launch a new one. -/
def acquire (s : RegistryState) : RegistryState × Nat :=
  match s.slot with
  | some i =>
    if 0 < strongCount s i then
      ({ s with counts := s.counts.set i (strongCount s i + 1) }, i)
    else launchNew s
  | none => launchNew s

/-- Dropping one strong reference to instance `i`. -/
def releaseRef (s : RegistryState) (i : Nat) : RegistryState :=
  { s with counts := s.counts.set i (strongCount s i - 1) }

/-- Registry events: an acquisition, or the release of one strong
reference to instance `i`. -/
inductive RegEvent where
  | acq
  | rel (i : Nat)
deriving DecidableEq, Repr

def regStep (s : RegistryState) : RegEvent → RegistryState
  | .acq => (acquire s).1
  | .rel i => releaseRef s i

/-- The registry state after a sequence of events from the initial
slot. -/
def regRun (evs : List RegEvent) : RegistryState :=
  evs.foldl regStep initRegistry

/-- The registry invariant: every launched instance other than the slot's
current one is dead, and the slot only ever names a launched instance. -/
def RegInv (s : RegistryState) : Prop :=
  (∀ i, i < s.counts.length → s.slot ≠ some i → s.counts.getD i 0 = 0) ∧
  (match s.slot with
   | none => True
   | some i => i < s.counts.length)

/-- The upgrade of the weak reference fails: empty slot, or the referenced
instance has no strong holder left. -/
def upgradeFails (s : RegistryState) : Prop :=
  match s.slot with
  | none => True
  | some i => strongCount s i = 0

theorem getD_set_self : ∀ (l : List Nat) (i v : Nat), i < l.length →
    (l.set i v).getD i 0 = v
  | _ :: _, 0, _, _ => rfl
  | _ :: l, i + 1, v, h => getD_set_self l i v (by simpa using h)

theorem getD_set_other : ∀ (l : List Nat) (i j v : Nat), i ≠ j →
    (l.set i v).getD j 0 = l.getD j 0
  | [], _, _, _, _ => rfl
  | _ :: _, 0, 0, _, h => absurd rfl h
  | _ :: _, 0, _ + 1, _, _ => rfl
  | _ :: _, _ + 1, 0, _, _ => rfl
  | _ :: l, i + 1, j + 1, v, h =>
    getD_set_other l i j v (fun e => h (by rw [e]))

theorem getD_of_length_le : ∀ (l : List Nat) (i : Nat), l.length ≤ i →
    l.getD i 0 = 0
  | [], _, _ => by simp
  | _ :: l, i + 1, h => getD_of_length_le l i (by simpa using h)

theorem getD_append_left : ∀ (l l2 : List Nat) (i : Nat), i < l.length →
    (l ++ l2).getD i 0 = l.getD i 0
  | _ :: _, _, 0, _ => rfl
  | _ :: l, l2, i + 1, h => getD_append_left l l2 i (by simpa using h)

theorem getD_append_last : ∀ (l : List Nat) (x : Nat),
    (l ++ [x]).getD l.length 0 = x
  | [], _ => rfl
  | _ :: l, x => getD_append_last l x

/-- Under the invariant, a failed upgrade means every launched instance is
dead. -/
theorem upgradeFails_all_dead (s : RegistryState) (hInv : RegInv s)
    (hf : upgradeFails s) : ∀ j, strongCount s j = 0 := by
  intro j
  by_cases hj : j < s.counts.length
  · cases hs : s.slot with
    | none => exact hInv.1 j hj (by simp [hs])
    | some i =>
      by_cases hij : i = j
      · subst hij
        simpa [upgradeFails, hs, strongCount] using hf
      · exact hInv.1 j hj (by simp [hs, hij])
  · exact getD_of_length_le _ _ (by omega)

theorem regInv_init : RegInv initRegistry := by
  constructor
  · intro i hi
    simp [initRegistry] at hi
  · simp [initRegistry]

theorem regInv_launchNew (s : RegistryState) (hInv : RegInv s)
    (hf : upgradeFails s) : RegInv (launchNew s).1 := by
  constructor
  · intro j hj hne
    simp only [launchNew] at hj hne ⊢
    have hjlen : j < s.counts.length := by
      simp only [List.length_append, List.length_cons, List.length_nil]
        at hj
      rcases Nat.lt_or_ge j s.counts.length with h | h
      · exact h
      · exfalso
        have hje : j = s.counts.length := by omega
        exact hne (by rw [hje])
    rw [getD_append_left _ _ _ hjlen]
    have := upgradeFails_all_dead s hInv hf j
    simpa [strongCount] using this
  · simp [launchNew]

theorem regInv_step (s : RegistryState) (e : RegEvent) (hInv : RegInv s) :
    RegInv (regStep s e) := by
  cases e with
  | acq =>
    show RegInv (acquire s).1
    cases hs : s.slot with
    | none =>
      simp only [acquire, hs]
      exact regInv_launchNew s hInv (by simp [upgradeFails, hs])
    | some i =>
      by_cases hc : 0 < strongCount s i
      · simp only [acquire, hs, if_pos hc]
        constructor
        · intro j hj hne
          simp only [List.length_set] at hj
          simp only at hne
          have hij : i ≠ j := by
            intro e
            subst e
            exact hne rfl
          rw [getD_set_other _ _ _ _ hij]
          exact hInv.1 j hj (by simpa [hs] using hne)
        · simp only [List.length_set]
          have := hInv.2
          simpa [hs] using this
      · simp only [acquire, hs, if_neg hc]
        exact regInv_launchNew s hInv
          (by simp only [upgradeFails, hs]; omega)
  | rel i =>
    show RegInv (releaseRef s i)
    constructor
    · intro j hj hne
      simp only [releaseRef, List.length_set] at hj ⊢
      by_cases hij : i = j
      · subst hij
        rw [getD_set_self _ _ _ hj]
        have h0 : s.counts.getD i 0 = 0 := hInv.1 i hj (by simpa using hne)
        simp only [strongCount, h0]
      · rw [getD_set_other _ _ _ _ hij]
        exact hInv.1 j hj (by simpa using hne)
    · simp only [releaseRef, List.length_set]
      exact hInv.2

theorem regInv_run_aux (evs : List RegEvent) :
    ∀ s, RegInv s → RegInv (evs.foldl regStep s) := by
  induction evs with
  | nil => intro s h; exact h
  | cons e rest ih =>
    intro s h
    exact ih (regStep s e) (regInv_step s e h)

theorem regInv_run (evs : List RegEvent) : RegInv (regRun evs) :=
  regInv_run_aux evs initRegistry regInv_init

/-- The conclusion of the C3 claim, as a predicate on the pre-state and an
arbitrary event trace. -/
def RegistryAcquireSpec (s : RegistryState) (evs : List RegEvent) : Prop :=
  (∀ i, s.slot = some i → 0 < strongCount s i →
    (acquire s).2 = i ∧ (acquire s).1.launches = s.launches ∧
      (acquire s).1.slot = s.slot) ∧
  (upgradeFails s →
    (acquire s).1.launches = s.launches + 1 ∧
    (acquire s).1.slot = some (acquire s).2 ∧
    strongCount (acquire s).1 (acquire s).2 = 1 ∧
    (∀ i, s.slot = some i → (acquire s).2 ≠ i) ∧
    strongCount (releaseRef (acquire s).1 (acquire s).2) (acquire s).2 = 0) ∧
  (RegInv (regRun evs) ∧
    ∀ i j, 0 < strongCount (regRun evs) i → 0 < strongCount (regRun evs) j →
      i = j)

/-- C3: the registry slot keeps at most one live instance. On every
acquisition: when the weak reference upgrades (the slot's instance still
has a strong holder), that instance is returned and no launch occurs;
otherwise exactly one new instance is launched, a weak — not strong —
reference to it is stored in the slot (so releasing the returned strong
reference makes it dead again), and a strong reference to the fresh
instance (distinct from the slot's previous instance) is returned. In
every state reachable from the initial slot the invariant holds, and at
most one live instance exists under the slot at any time. -/
theorem registry_single_live_instance (s : RegistryState)
    (evs : List RegEvent) (hInv : RegInv s) : RegistryAcquireSpec s evs := by
  refine ⟨?_, ?_, regInv_run evs, ?_⟩
  · intro i hi hc
    refine ⟨?_, ?_, ?_⟩ <;> simp [acquire, hi, if_pos hc]
  · intro hf
    have hlaunch : acquire s = launchNew s := by
      cases hs : s.slot with
      | none => simp [acquire, hs]
      | some i =>
        have hc : ¬0 < strongCount s i := by
          simp only [upgradeFails, hs] at hf
          omega
        simp [acquire, hs, if_neg hc]
    rw [hlaunch]
    refine ⟨rfl, rfl, ?_, ?_, ?_⟩
    · show (s.counts ++ [1]).getD s.counts.length 0 = 1
      exact getD_append_last s.counts 1
    · intro i hi
      have := hInv.2
      simp only [hi] at this
      show s.counts.length ≠ i
      omega
    · show ((s.counts ++ [1]).set s.counts.length
        ((s.counts ++ [1]).getD s.counts.length 0 - 1)).getD
          s.counts.length 0 = 0
      rw [getD_append_last s.counts 1]
      rw [getD_set_self _ _ _ (by simp)]
  · intro i j hi hj
    have hInvRun := regInv_run evs
    have hslot_i : (regRun evs).slot = some i := by
      by_contra hne
      have hlen : i < (regRun evs).counts.length := by
        by_contra hge
        have h0 := getD_of_length_le (regRun evs).counts i (by omega)
        simp only [strongCount] at hi
        rw [h0] at hi
        exact absurd hi (by omega)
      have h0 := hInvRun.1 i hlen hne
      simp only [strongCount] at hi
      rw [h0] at hi
      exact absurd hi (by omega)
    have hslot_j : (regRun evs).slot = some j := by
      by_contra hne
      have hlen : j < (regRun evs).counts.length := by
        by_contra hge
        have h0 := getD_of_length_le (regRun evs).counts j (by omega)
        simp only [strongCount] at hj
        rw [h0] at hj
        exact absurd hj (by omega)
      have h0 := hInvRun.1 j hlen hne
      simp only [strongCount] at hj
      rw [h0] at hj
      exact absurd hj (by omega)
    rw [hslot_i] at hslot_j
    exact Option.some.inj hslot_j

/-- Witness for C3 at a concrete pre-state (one live instance with a
single strong holder) and a concrete event trace. -/
theorem registry_single_live_instance_witness :
    RegistryAcquireSpec ⟨some 0, [1], 1⟩ [.acq, .rel 0, .rel 0, .acq] :=
  registry_single_live_instance ⟨some 0, [1], 1⟩ [.acq, .rel 0, .rel 0, .acq]
    (by refine ⟨?_, ?_⟩
        · intro i hi hne
          have hi0 : i = 0 := Nat.lt_one_iff.mp hi
          subst hi0
          exact absurd rfl hne
        · show (0 : Nat) < 1
          exact Nat.zero_lt_one)

/-! ## The readiness-probe loop in `PostgresBuilder::start`
(lib.rs lines 697-713)

Each iteration attempts a TCP connection; on failure the loop reads the
clock and compares the elapsed time against the startup timeout before
sleeping and retrying.  A trace entry records one attempt's outcome and
the elapsed time observed at the failure check; the trace is finite, so a
trace that ends before the loop decides yields `indeterminate`. -/

/-- One connection attempt: whether `TcpStream::connect` succeeded, and
`now.duration_since(started)` as observed at the failure check. -/
structure ProbeAttempt where
  success : Bool
  elapsedAtCheck : Nat
deriving DecidableEq, Repr

inductive ProbeOutcome where
  | ok
  | startupTimeout
  | indeterminate
deriving DecidableEq, Repr

/-- The probe loop (lib.rs lines 700-713): break on the first successful
connection; on failure return the timeout error when the elapsed time has
reached or exceeded the startup timeout (`>=` in the source), otherwise
sleep the probe delay and retry. -/
def probeLoop (timeoutDur : Nat) : List ProbeAttempt → ProbeOutcome
  | [] => .indeterminate
  | a :: rest =>
    if a.success then .ok
    else if timeoutDur ≤ a.elapsedAtCheck then .startupTimeout
    else probeLoop timeoutDur rest

/-- The tail of `PostgresBuilder::start` after `ProcessGuard::spawn_graceful`
(lib.rs lines 694-713): on the timeout path the early `return Err` drops
the just-created `ProcessGuard`, terminating the spawned server; on the
success path the guard is moved into the returned `Postgres` value. The
boolean records whether the guard was released. -/
def startAfterSpawn (timeoutDur : Nat) (trace : List ProbeAttempt) :
    ProbeOutcome × Bool :=
  match probeLoop timeoutDur trace with
  | .ok => (.ok, false)
  | .startupTimeout => (.startupTimeout, true)
  | .indeterminate => (.indeterminate, false)

theorem probeLoop_ok_iff (t : Nat) :
    ∀ trace : List ProbeAttempt, probeLoop t trace = .ok ↔
      ∃ pre a post, trace = pre ++ a :: post ∧
        (∀ b ∈ pre, b.success = false ∧ b.elapsedAtCheck < t) ∧
        a.success = true := by
  intro trace
  induction trace with
  | nil =>
    constructor
    · intro h
      exact absurd h (by simp [probeLoop])
    · rintro ⟨pre, a, post, heq, -, -⟩
      exact absurd heq (by simp)
  | cons a rest ih =>
    by_cases hs : a.success = true
    · constructor
      · intro _
        exact ⟨[], a, rest, rfl, by simp, hs⟩
      · intro _
        simp [probeLoop, hs]
    · have hs' : a.success = false := by
        cases hsa : a.success
        · rfl
        · exact absurd hsa hs
      by_cases ht : t ≤ a.elapsedAtCheck
      · constructor
        · intro h
          rw [show probeLoop t (a :: rest) = .startupTimeout by
              simp [probeLoop, hs', ht]] at h
          exact absurd h (by simp)
        · rintro ⟨pre, a0, post, heq, hpre, hsucc⟩
          exfalso
          cases pre with
          | nil =>
            simp only [List.nil_append, List.cons.injEq] at heq
            obtain ⟨h1, -⟩ := heq
            rw [← h1, hs'] at hsucc
            exact Bool.false_ne_true hsucc
          | cons p pre2 =>
            simp only [List.cons_append, List.cons.injEq] at heq
            obtain ⟨h1, -⟩ := heq
            have hp := hpre p (by simp)
            rw [← h1] at hp
            exact absurd hp.2 (by omega)
      · have hstep : probeLoop t (a :: rest) = probeLoop t rest := by
          simp [probeLoop, hs', ht]
        rw [hstep, ih]
        constructor
        · rintro ⟨pre, a0, post, heq, hpre, hsucc⟩
          refine ⟨a :: pre, a0, post, by simp [heq], ?_, hsucc⟩
          intro b hb
          rcases List.mem_cons.mp hb with hb | hb
          · subst hb
            exact ⟨hs', by omega⟩
          · exact hpre b hb
        · rintro ⟨pre, a0, post, heq, hpre, hsucc⟩
          cases pre with
          | nil =>
            simp only [List.nil_append, List.cons.injEq] at heq
            obtain ⟨h1, -⟩ := heq
            rw [← h1, hs'] at hsucc
            exact absurd hsucc Bool.false_ne_true
          | cons p pre2 =>
            simp only [List.cons_append, List.cons.injEq] at heq
            obtain ⟨-, h2⟩ := heq
            exact ⟨pre2, a0, post, h2,
              fun b hb => hpre b (by simp [hb]), hsucc⟩

theorem probeLoop_timeout_iff (t : Nat) :
    ∀ trace : List ProbeAttempt, probeLoop t trace = .startupTimeout ↔
      ∃ pre a post, trace = pre ++ a :: post ∧
        (∀ b ∈ pre, b.success = false ∧ b.elapsedAtCheck < t) ∧
        a.success = false ∧ t ≤ a.elapsedAtCheck := by
  intro trace
  induction trace with
  | nil =>
    constructor
    · intro h
      exact absurd h (by simp [probeLoop])
    · rintro ⟨pre, a, post, heq, -, -⟩
      exact absurd heq (by simp)
  | cons a rest ih =>
    by_cases hs : a.success = true
    · constructor
      · intro h
        rw [show probeLoop t (a :: rest) = .ok by simp [probeLoop, hs]] at h
        exact absurd h (by simp)
      · rintro ⟨pre, a0, post, heq, hpre, hsucc, -⟩
        exfalso
        cases pre with
        | nil =>
          simp only [List.nil_append, List.cons.injEq] at heq
          obtain ⟨h1, -⟩ := heq
          rw [← h1, hs] at hsucc
          exact absurd hsucc (by simp)
        | cons p pre2 =>
          simp only [List.cons_append, List.cons.injEq] at heq
          obtain ⟨h1, -⟩ := heq
          have hp := hpre p (by simp)
          rw [← h1] at hp
          exact absurd hp.1 (by simp [hs])
    · have hs' : a.success = false := by
        cases hsa : a.success
        · rfl
        · exact absurd hsa hs
      by_cases ht : t ≤ a.elapsedAtCheck
      · constructor
        · intro _
          exact ⟨[], a, rest, rfl, by simp, hs', ht⟩
        · intro _
          simp [probeLoop, hs', ht]
      · have hstep : probeLoop t (a :: rest) = probeLoop t rest := by
          simp [probeLoop, hs', ht]
        rw [hstep, ih]
        constructor
        · rintro ⟨pre, a0, post, heq, hpre, hsucc, hel⟩
          refine ⟨a :: pre, a0, post, by simp [heq], ?_, hsucc, hel⟩
          intro b hb
          rcases List.mem_cons.mp hb with hb | hb
          · subst hb
            exact ⟨hs', by omega⟩
          · exact hpre b hb
        · rintro ⟨pre, a0, post, heq, hpre, hsucc, hel⟩
          cases pre with
          | nil =>
            simp only [List.nil_append, List.cons.injEq] at heq
            obtain ⟨h1, -⟩ := heq
            exfalso
            rw [← h1] at hel
            exact absurd hel ht
          | cons p pre2 =>
            simp only [List.cons_append, List.cons.injEq] at heq
            obtain ⟨-, h2⟩ := heq
            exact ⟨pre2, a0, post, h2,
              fun b hb => hpre b (by simp [hb]), hsucc, hel⟩

/-- C5: the readiness probe stops at the first successful connection
attempt — `start` proceeds to `Ok` exactly when some attempt succeeds
after a (possibly empty) run of failed attempts all checked before the
startup timeout elapsed; it returns `Err(StartupTimeout)` exactly when a
run of failed attempts, all earlier checks below the timeout, ends with a
failed attempt whose elapsed time has reached or exceeded the timeout (so
the timeout error occurs if and only if no connection attempt succeeds
within the startup timeout); and on the timeout path the already-spawned
server's process guard is released, while on the success path it is
not. -/
theorem probe_readiness_spec (t : Nat) (trace : List ProbeAttempt) :
    (probeLoop t trace = .ok ↔
      ∃ pre a post, trace = pre ++ a :: post ∧
        (∀ b ∈ pre, b.success = false ∧ b.elapsedAtCheck < t) ∧
        a.success = true) ∧
    (probeLoop t trace = .startupTimeout ↔
      ∃ pre a post, trace = pre ++ a :: post ∧
        (∀ b ∈ pre, b.success = false ∧ b.elapsedAtCheck < t) ∧
        a.success = false ∧ t ≤ a.elapsedAtCheck) ∧
    ((startAfterSpawn t trace).1 = probeLoop t trace) ∧
    ((startAfterSpawn t trace).2 = true ↔
      probeLoop t trace = .startupTimeout) := by
  refine ⟨probeLoop_ok_iff t trace, probeLoop_timeout_iff t trace, ?_, ?_⟩
  · cases h : probeLoop t trace <;> simp [startAfterSpawn, h]
  · cases h : probeLoop t trace <;> simp [startAfterSpawn, h]

end Pgdb
